import Mathlib

/-!
Shallow embedding of the Rust chat server's room state manager and broadcast
engine (src/state.rs, src/models.rs, src/websocket.rs, src/database.rs).

Modelling choices:
* `Uuid` session ids become `Nat`; `HashMap` becomes an association list whose
  order models the map's iteration order.
* A client's WebSocket sender is modelled by a static `sendOk` flag (a send
  attempt succeeds iff `sendOk = true`) together with an `inbox` recording the
  successfully delivered strings, in delivery order.
* The PostgreSQL store is modelled as an append-only list of
  (room name, message) pairs in insertion order; `load_history` returns the
  most recent `limit` entries of a room in chronological order, exactly as the
  SQL `ORDER BY timestamp DESC LIMIT n` plus reversal does.
* Every handler returns, besides the new state, a chronological list of
  observable effects: mutex acquisition/release of the global rooms lock,
  store reads/writes, and per-client delivery attempts.  The effect list
  follows the Rust control flow statement by statement; in particular a store
  call that the Rust code awaits while the `MutexGuard` is alive appears
  between that guard's `lockAcquire` and `lockRelease`.
-/

/-- `ServerMessage` from src/models.rs. -/
inductive ServerMessage where
  | UserJoined (username : String)
  | UserLeft (username : String)
  | NewMessage (username : String) (content : String)
deriving DecidableEq, Repr

/-- `Client` from src/state.rs: the username plus the model of its sender. -/
structure Client where
  username : String
  sendOk : Bool
  inbox : List String
deriving DecidableEq, Repr

/-- `Room` from src/state.rs. -/
structure Room where
  clients : List (Nat × Client)
  history : List ServerMessage
deriving DecidableEq, Repr

/-- `IN_MEMORY_CACHE_SIZE` from src/state.rs. -/
def IN_MEMORY_CACHE_SIZE : Nat := 50

/-- `MAX_HISTORY_SIZE` from src/state.rs. -/
def MAX_HISTORY_SIZE : Nat := 1000

/-- `ChatState` from src/state.rs, with the database pool replaced by the
store contents it reaches. -/
structure ChatState where
  rooms : List (String × Room)
  store : List (String × ServerMessage)
deriving DecidableEq, Repr

/-- Observable effects of one handler run, in program order. -/
inductive Effect where
  | lockAcquire
  | lockRelease
  | storeRead (room : String) (limit : Nat)
  | storeWrite (room : String) (msg : ServerMessage)
  | sendAttempt (cid : Nat) (text : String)
deriving DecidableEq, Repr

/-- Association-list lookup (`HashMap::get`). -/
def alGet {α β : Type} [DecidableEq α] : List (α × β) → α → Option β
  | [], _ => none
  | (a, b) :: t, k => if a = k then some b else alGet t k

/-- Association-list in-place update of an existing key (`*get_mut(k) = v`). -/
def alSet {α β : Type} [DecidableEq α] : List (α × β) → α → β → List (α × β)
  | [], _, _ => []
  | (a, b) :: t, k, v => if a = k then (a, v) :: t else (a, b) :: alSet t k v

/-- Association-list removal (`HashMap::remove`). -/
def alRemove {α β : Type} [DecidableEq α] : List (α × β) → α → List (α × β)
  | [], _ => []
  | (a, b) :: t, k => if a = k then t else (a, b) :: alRemove t k

/-- Rust's `str::trim`, over the string's character sequence. -/
def trimStr (s : String) : String :=
  String.mk (((s.data.dropWhile Char.isWhitespace).reverse.dropWhile
    Char.isWhitespace).reverse)

/-- Rust's `str::starts_with`, over the string's character sequence. -/
def startsWithStr (s p : String) : Bool :=
  p.data.isPrefixOf s.data

/-- Rust's `str::strip_prefix`. -/
def stripPrefixStr (s p : String) : Option String :=
  if startsWithStr s p then some (String.mk (s.data.drop p.data.length)) else none

/-- `parse_message_for_display` from src/websocket.rs. -/
def parse_message_for_display : ServerMessage → String
  | ServerMessage.NewMessage username content => "[" ++ username ++ "] " ++ content
  | ServerMessage.UserJoined username => "--> " ++ username ++ " joined the room"
  | ServerMessage.UserLeft username => "<-- " ++ username ++ " left the room"

/-- `database::load_history` from src/database.rs: the most recent `limit`
events of the room, in chronological order. -/
def load_history (store : List (String × ServerMessage)) (room_name : String)
    (limit : Nat) : List ServerMessage :=
  let msgs := (store.filter (fun p => p.1 == room_name)).map Prod.snd
  msgs.drop (msgs.length - limit)

/-- One delivery attempt through a client's sender (`client.sender.send`). -/
def sendTo (c : Client) (text : String) : Client × Bool :=
  if c.sendOk then ({ c with inbox := c.inbox ++ [text] }, true) else (c, false)

/-- The history-replay loop of `handle_set_username` / `handle_load_full_history`:
send each rendered message in order, stopping at the first failed send (the
Rust code `return`s there).  Returns the updated client, the delivery-attempt
effects, and whether every send succeeded. -/
def replay (cid : Nat) (c : Client) : List String → Client × List Effect × Bool
  | [] => (c, [], true)
  | m :: rest =>
    let s := sendTo c m
    if s.2 then
      let r := replay cid s.1 rest
      (r.1, Effect.sendAttempt cid m :: r.2.1, r.2.2)
    else
      (s.1, [Effect.sendAttempt cid m], false)

/-- The cache update of `broadcast_message` (push_back, then pop_front when the
length exceeds `IN_MEMORY_CACHE_SIZE`). -/
def appendEvent (h : List ServerMessage) (m : ServerMessage) : List ServerMessage :=
  let h1 := h ++ [m]
  if h1.length > IN_MEMORY_CACHE_SIZE then h1.tail else h1

/-- The fan-out loop of `broadcast_message`: iterate the client map, skip the
excluded id, attempt delivery of the rendered text to everyone else; a failed
send is only logged. -/
def fanOut (rendered : String) (exclude : Option Nat) :
    List (Nat × Client) → List (Nat × Client) × List Effect
  | [] => ([], [])
  | (id, c) :: rest =>
    let r := fanOut rendered exclude rest
    if exclude = some id then ((id, c) :: r.1, r.2)
    else
      let s := sendTo c rendered
      ((id, s.1) :: r.1, Effect.sendAttempt id rendered :: r.2)

/-- `broadcast_message` from src/websocket.rs: append to the cache (evicting
the oldest entry past the capacity), render once, fan out to every client
except the excluded one. -/
def broadcast_message (message : ServerMessage) (rooms : List (String × Room))
    (room_name : String) (exclude_client_id : Option Nat) :
    List (String × Room) × List Effect :=
  match alGet rooms room_name with
  | none => (rooms, [])
  | some room =>
    let h2 := appendEvent room.history message
    let parsed_message := parse_message_for_display message
    let f := fanOut parsed_message exclude_client_id room.clients
    (alSet rooms room_name { clients := f.1, history := h2 }, f.2)

/-- The inline notice of `handle_chat_message` for anonymous senders. -/
def chatGateNotice : String :=
  "Please set a username with `/user <name>` before sending messages."

/-- The inline notice of `handle_load_full_history` for anonymous requesters. -/
def historyGateNotice : String :=
  "Please set a username with `/user <name>` before loading history."

/-- `handle_set_username` from src/websocket.rs: under the rooms lock, hydrate
the cache from the store when it is empty, update the client's username, replay
the cache to that client (aborting everything on a failed send), broadcast
`UserJoined` excluding the setter, and persist the join event before the guard
is dropped. -/
def handle_set_username (username : String) (cid : Nat) (s : ChatState)
    (room_name : String) : ChatState × List Effect :=
  match alGet s.rooms room_name with
  | none => (s, [Effect.lockAcquire, Effect.lockRelease])
  | some room0 =>
    let hyd := room0.history.isEmpty
    let room1 :=
      if hyd then { room0 with history := load_history s.store room_name MAX_HISTORY_SIZE }
      else room0
    let effs0 :=
      Effect.lockAcquire ::
        (if hyd then [Effect.storeRead room_name MAX_HISTORY_SIZE] else [])
    match alGet room1.clients cid with
    | none =>
      let join := ServerMessage.UserJoined username
      let rooms1 := alSet s.rooms room_name room1
      let b := broadcast_message join rooms1 room_name (some cid)
      ({ rooms := b.1, store := s.store ++ [(room_name, join)] },
        effs0 ++ b.2 ++ [Effect.storeWrite room_name join, Effect.lockRelease])
    | some client =>
      let client1 := { client with username := username }
      let r := replay cid client1 (room1.history.map parse_message_for_display)
      let room2 := { room1 with clients := alSet room1.clients cid r.1 }
      let rooms1 := alSet s.rooms room_name room2
      if r.2.2 then
        let join := ServerMessage.UserJoined username
        let b := broadcast_message join rooms1 room_name (some cid)
        ({ rooms := b.1, store := s.store ++ [(room_name, join)] },
          effs0 ++ r.2.1 ++ b.2 ++ [Effect.storeWrite room_name join, Effect.lockRelease])
      else
        ({ rooms := rooms1, store := s.store }, effs0 ++ r.2.1 ++ [Effect.lockRelease])

/-- `handle_load_full_history` from src/websocket.rs: under the rooms lock,
reject anonymous requesters with an inline notice; otherwise read the full
history from the store (regardless of the cache) and replay it to the
requesting client only. -/
def handle_load_full_history (cid : Nat) (s : ChatState) (room_name : String) :
    ChatState × List Effect :=
  match alGet s.rooms room_name with
  | none => (s, [Effect.lockAcquire, Effect.lockRelease])
  | some room =>
    match alGet room.clients cid with
    | none => (s, [Effect.lockAcquire, Effect.lockRelease])
    | some client =>
      if client.username = "anonymous" then
        let c2 := (sendTo client historyGateNotice).1
        let room2 := { room with clients := alSet room.clients cid c2 }
        ({ s with rooms := alSet s.rooms room_name room2 },
          [Effect.lockAcquire, Effect.sendAttempt cid historyGateNotice,
            Effect.lockRelease])
      else
        let full := load_history s.store room_name MAX_HISTORY_SIZE
        let r := replay cid client (full.map parse_message_for_display)
        let room2 := { room with clients := alSet room.clients cid r.1 }
        ({ s with rooms := alSet s.rooms room_name room2 },
          Effect.lockAcquire :: Effect.storeRead room_name MAX_HISTORY_SIZE ::
            r.2.1 ++ [Effect.lockRelease])

/-- `handle_chat_message` from src/websocket.rs: drop whitespace-only content
before taking the lock; reject anonymous senders with an inline notice;
otherwise broadcast `NewMessage` excluding the sender and persist it while the
guard is still alive. -/
def handle_chat_message (content : String) (cid : Nat) (s : ChatState)
    (room_name : String) : ChatState × List Effect :=
  if (trimStr content).data.isEmpty then (s, [])
  else
    match alGet s.rooms room_name with
    | none => (s, [Effect.lockAcquire, Effect.lockRelease])
    | some room =>
      match alGet room.clients cid with
      | none => (s, [Effect.lockAcquire, Effect.lockRelease])
      | some client =>
        if client.username = "anonymous" then
          let c2 := (sendTo client chatGateNotice).1
          let room2 := { room with clients := alSet room.clients cid c2 }
          ({ s with rooms := alSet s.rooms room_name room2 },
            [Effect.lockAcquire, Effect.sendAttempt cid chatGateNotice,
              Effect.lockRelease])
        else
          let msg := ServerMessage.NewMessage client.username content
          let b := broadcast_message msg s.rooms room_name (some cid)
          ({ rooms := b.1, store := s.store ++ [(room_name, msg)] },
            Effect.lockAcquire :: b.2 ++
              [Effect.storeWrite room_name msg, Effect.lockRelease])

/-- `cleanup_client` from src/websocket.rs: under a first lock, remove the
client, remember whether it was named, and delete the room if it became empty;
then, when the client was named, take a fresh lock, broadcast `UserLeft` with
no exclusion and persist it before that guard is dropped. -/
def cleanup_client (s : ChatState) (cid : Nat) (room_name : String) :
    ChatState × List Effect :=
  let first : ChatState × String × Bool :=
    match alGet s.rooms room_name with
    | none => (s, ("anonymous", false))
    | some room =>
      match alGet room.clients cid with
      | none =>
        let rooms2 := if room.clients.isEmpty then alRemove s.rooms room_name else s.rooms
        ({ s with rooms := rooms2 }, ("anonymous", false))
      | some client =>
        let clients2 := alRemove room.clients cid
        let rooms2 :=
          if clients2.isEmpty then alRemove s.rooms room_name
          else alSet s.rooms room_name { room with clients := clients2 }
        ({ s with rooms := rooms2 }, (client.username, client.username != "anonymous"))
  let s1 := first.1
  let username := first.2.1
  if first.2.2 then
    let left_msg := ServerMessage.UserLeft username
    let b := broadcast_message left_msg s1.rooms room_name none
    ({ rooms := b.1, store := s1.store ++ [(room_name, left_msg)] },
      Effect.lockAcquire :: Effect.lockRelease :: Effect.lockAcquire :: b.2 ++
        [Effect.storeWrite room_name left_msg, Effect.lockRelease])
  else (s1, [Effect.lockAcquire, Effect.lockRelease])

/-- One inbound client intent, as dispatched by `read_from_client`. -/
inductive Intent where
  | setUsername (name : String)
  | loadHistory
  | chat (content : String)
  | ignore
deriving DecidableEq, Repr

/-- The dispatch of one text frame in `read_from_client`: trim, then a
`/user ` prefix with a nonempty trimmed argument sets the username, the exact
text `/history` requests a replay, and anything else is chat content. -/
def parseFrame (text : String) : Intent :=
  let t := trimStr text
  if startsWithStr t "/user " then
    match stripPrefixStr t "/user " with
    | some rest =>
      if (trimStr rest).data.isEmpty then Intent.ignore
      else Intent.setUsername (trimStr rest)
    | none => Intent.ignore
  else if t = "/history" then Intent.loadHistory
  else Intent.chat t

/-- Processing of one inbound frame from a client (`read_from_client` body). -/
def processFrame (text : String) (cid : Nat) (s : ChatState) (room_name : String) :
    ChatState × List Effect :=
  match parseFrame text with
  | Intent.setUsername u => handle_set_username u cid s room_name
  | Intent.loadHistory => handle_load_full_history cid s room_name
  | Intent.chat c => handle_chat_message c cid s room_name
  | Intent.ignore => (s, [])

/-- Formalisation of the decoupling property claimed by the spec: scans an
effect trace keeping the nesting depth of the rooms lock, and returns `true`
iff some store write is issued while the lock is held. -/
def writesInsideLock : Nat → List Effect → Bool
  | _, [] => false
  | d, Effect.lockAcquire :: t => writesInsideLock (d + 1) t
  | d, Effect.lockRelease :: t => writesInsideLock (d - 1) t
  | d, Effect.storeWrite _ _ :: t => decide (0 < d) || writesInsideLock d t
  | d, _ :: t => writesInsideLock d t

/-- `true` iff the trace contains a delivery attempt after some store write:
used to state that broadcast delivery always completes before persistence. -/
def sendAfterWrite : Bool → List Effect → Bool
  | _, [] => false
  | _, Effect.storeWrite _ _ :: t => sendAfterWrite true t
  | seen, Effect.sendAttempt _ _ :: t => seen || sendAfterWrite seen t
  | seen, _ :: t => sendAfterWrite seen t

/-- Effect classifier used in the statements. -/
def Effect.isStoreRead : Effect → Bool
  | Effect.storeRead _ _ => true
  | _ => false

/-- Effect classifier used in the statements. -/
def Effect.isStoreWrite : Effect → Bool
  | Effect.storeWrite _ _ => true
  | _ => false

/-- Effect classifier used in the statements. -/
def Effect.isSendAttempt : Effect → Bool
  | Effect.sendAttempt _ _ => true
  | _ => false

/-- Effect classifier used in the statements: a delivery attempt to `cid`. -/
def Effect.isSendAttemptTo (cid : Nat) : Effect → Bool
  | Effect.sendAttempt id _ => id == cid
  | _ => false

/-- A connected client with a working sender, named "alice". -/
def exAlice : Client := { username := "alice", sendOk := true, inbox := [] }

/-- A connected client with a working sender, named "bob". -/
def exBob : Client := { username := "bob", sendOk := true, inbox := [] }

/-- A connected client that never set a name. -/
def exAnon : Client := { username := "anonymous", sendOk := true, inbox := [] }

/-- A state with one room "r" holding the named clients alice and bob. -/
def exState : ChatState :=
  { rooms := [("r", { clients := [(1, exAlice), (2, exBob)], history := [] })],
    store := [] }

/-- A state whose room "r" holds only the anonymous client 1. -/
def exAnonState : ChatState :=
  { rooms := [("r", { clients := [(1, exAnon)], history := [] })], store := [] }

/-- A state whose room "r" has a warm one-entry cache that differs from the
store's content for "r". -/
def exWarmState : ChatState :=
  { rooms := [("r",
      { clients := [(1, exAlice)],
        history := [ServerMessage.NewMessage "x" "cached"] })],
    store := [("r", ServerMessage.NewMessage "y" "stored")] }

/-- A state whose room "r" is clientless with a cold cache, while the store
already holds 51 events for "r". -/
def exColdState : ChatState :=
  { rooms := [("r", { clients := [], history := [] })],
    store := List.replicate 51 ("r", ServerMessage.NewMessage "u" "m") }

/-! ## Helper lemmas about the association-list operations -/

theorem alGet_alSet_self {α β : Type} [DecidableEq α] (l : List (α × β)) (k : α)
    (v : β) (h : (alGet l k).isSome) : alGet (alSet l k v) k = some v := by
  induction l with
  | nil => simp [alGet] at h
  | cons p t ih =>
    by_cases hk : p.1 = k
    · simp [alSet, alGet, hk]
    · simp [alGet, hk] at h
      simp [alSet, alGet, hk, ih h]

theorem alGet_alSet_ne {α β : Type} [DecidableEq α] (l : List (α × β)) (k k' : α)
    (v : β) (h : k' ≠ k) : alGet (alSet l k v) k' = alGet l k' := by
  induction l with
  | nil => simp [alSet]
  | cons p t ih =>
    obtain ⟨a, b⟩ := p
    by_cases hk : a = k
    · subst hk
      have hne : ¬ a = k' := fun hc => h hc.symm
      simp [alSet, alGet, hne]
    · simp [alSet, alGet, hk, ih]

theorem alGet_alSet_isSome {α β : Type} [DecidableEq α] (l : List (α × β)) (k k' : α)
    (v : β) : (alGet (alSet l k v) k').isSome = (alGet l k').isSome := by
  induction l with
  | nil => simp [alSet]
  | cons p t ih =>
    obtain ⟨a, b⟩ := p
    by_cases hk : a = k
    · subst hk
      by_cases hk' : a = k' <;> simp [alSet, alGet, hk']
    · by_cases hk' : a = k'
      · subst hk'
        simp [alSet, alGet, hk]
      · simp [alSet, alGet, hk, hk', ih]

/-- `alSet` touches only the entry of its key: usernames elsewhere survive. -/
theorem alGet_alSet_username (l : List (Nat × Client)) (k k' : Nat) (v : Client)
    (huser : ∀ c, alGet l k = some c → v.username = c.username) :
    (alGet (alSet l k v) k').map Client.username = (alGet l k').map Client.username := by
  induction l with
  | nil => simp [alSet]
  | cons p t ih =>
    obtain ⟨a, b⟩ := p
    by_cases hk : a = k
    · subst hk
      by_cases hk' : a = k'
      · simp [alSet, alGet, hk']
        exact huser b (by simp [alGet])
      · simp [alSet, alGet, hk']
    · by_cases hk' : a = k'
      · subst hk'
        simp [alSet, alGet, hk]
      · simp [alGet, hk] at huser
        simp [alSet, alGet, hk, hk', ih huser]


/-! ## Characterisation of the fan-out loop and the replay loop -/

/-- The fan-out emits exactly one delivery attempt of the single rendered
string per non-excluded client, in iteration order. -/
theorem fanOut_effects (rendered : String) (exclude : Option Nat)
    (cs : List (Nat × Client)) :
    (fanOut rendered exclude cs).2 =
      cs.filterMap (fun p =>
        if exclude = some p.1 then none
        else some (Effect.sendAttempt p.1 rendered)) := by
  induction cs with
  | nil => simp [fanOut]
  | cons p t ih =>
    obtain ⟨id, c⟩ := p
    by_cases hx : exclude = some id
    · subst hx
      simp only [fanOut, List.filterMap_cons, if_pos rfl]
      simpa using ih
    · simp [fanOut, hx, List.filterMap_cons, ih]

/-- The fan-out rewrites each entry in place: the excluded client is left
untouched, every other client only gains inbox content. -/
theorem fanOut_clients (rendered : String) (exclude : Option Nat)
    (cs : List (Nat × Client)) :
    (fanOut rendered exclude cs).1 =
      cs.map (fun p =>
        if exclude = some p.1 then p else (p.1, (sendTo p.2 rendered).1)) := by
  induction cs with
  | nil => simp [fanOut]
  | cons p t ih =>
    obtain ⟨id, c⟩ := p
    by_cases hx : exclude = some id
    · subst hx
      simp only [fanOut, if_pos rfl, List.map_cons]
      simpa using ih
    · simp [fanOut, hx, ih]

/-- A send attempt never changes anything but the inbox. -/
theorem sendTo_meta (c : Client) (text : String) :
    (sendTo c text).1.username = c.username ∧ (sendTo c text).1.sendOk = c.sendOk := by
  by_cases h : c.sendOk <;> simp [sendTo, h]

/-- When the client's sender works, the replay loop delivers every rendered
message, in order, and reports success. -/
theorem replay_all_ok (cid : Nat) (c : Client) (msgs : List String)
    (h : c.sendOk = true) :
    replay cid c msgs =
      ({ c with inbox := c.inbox ++ msgs }, msgs.map (Effect.sendAttempt cid), true) := by
  induction msgs generalizing c with
  | nil => simp [replay]
  | cons m rest ih =>
    simp [replay, sendTo, h, ih, List.append_assoc]

/-- The replay loop never changes the username or the sender. -/
theorem replay_meta (cid : Nat) (c : Client) (msgs : List String) :
    (replay cid c msgs).1.username = c.username ∧
      (replay cid c msgs).1.sendOk = c.sendOk := by
  induction msgs generalizing c with
  | nil => simp [replay]
  | cons m rest ih =>
    by_cases h : c.sendOk <;> simp [replay, sendTo, h, ih]

/-! ## The cache update -/

/-- Below capacity, an append is a plain push. -/
theorem appendEvent_push (h : List ServerMessage) (m : ServerMessage)
    (hlt : h.length < IN_MEMORY_CACHE_SIZE) : appendEvent h m = h ++ [m] := by
  simp [appendEvent]
  intro hcon
  exact absurd hcon (by omega)

/-- At or above capacity, an append pushes and evicts the oldest entry. -/
theorem appendEvent_evict (h : List ServerMessage) (m : ServerMessage)
    (hge : IN_MEMORY_CACHE_SIZE ≤ h.length) :
    appendEvent h m = (h ++ [m]).tail := by
  simp [appendEvent]
  intro hcon
  exact absurd hcon (by omega)

/-- One append keeps a within-capacity cache within capacity. -/
theorem appendEvent_length_le (h : List ServerMessage) (m : ServerMessage)
    (hle : h.length ≤ IN_MEMORY_CACHE_SIZE) :
    (appendEvent h m).length ≤ IN_MEMORY_CACHE_SIZE := by
  by_cases hlt : h.length < IN_MEMORY_CACHE_SIZE
  · rw [appendEvent_push h m hlt]
    simp
    omega
  · rw [appendEvent_evict h m (by omega)]
    rcases h with _ | ⟨a, t⟩
    · simp [IN_MEMORY_CACHE_SIZE] at hle ⊢
    · simp at hle ⊢
      omega

/-- Folding appends over a within-capacity cache yields exactly the most
recent `IN_MEMORY_CACHE_SIZE` entries of the full chronological stream. -/
theorem foldl_appendEvent (L : List ServerMessage) :
    ∀ h : List ServerMessage, h.length ≤ IN_MEMORY_CACHE_SIZE →
      L.foldl appendEvent h =
        (h ++ L).drop ((h ++ L).length - IN_MEMORY_CACHE_SIZE) := by
  induction L with
  | nil =>
    intro h hle
    simp [Nat.sub_eq_zero_of_le hle]
  | cons m rest ih =>
    intro h hle
    rw [List.foldl_cons]
    by_cases hlt : h.length < IN_MEMORY_CACHE_SIZE
    · rw [appendEvent_push h m hlt, ih (h ++ [m]) (by simp; omega)]
      simp [List.append_assoc]
    · have hlen : h.length = IN_MEMORY_CACHE_SIZE := by omega
      rcases h with _ | ⟨a, t⟩
      · simp [IN_MEMORY_CACHE_SIZE] at hlen
      · have happ : appendEvent (a :: t) m = t ++ [m] := by
          rw [appendEvent_evict (a :: t) m (by omega)]
          simp
        simp only [List.length_cons] at hlen
        rw [happ, ih (t ++ [m]) (by simp; omega)]
        have h1 : ((a :: t) ++ m :: rest).length - IN_MEMORY_CACHE_SIZE
            = rest.length + 1 := by
          simp
          omega
        have h2 : ((t ++ [m]) ++ rest).length - IN_MEMORY_CACHE_SIZE
            = rest.length := by
          simp
          omega
        rw [h1, h2, List.cons_append, List.drop_succ_cons, List.append_assoc,
          List.singleton_append]

/-! ## Handler characterisations -/

/-- Unfolding of `broadcast_message` when the room exists. -/
theorem broadcast_some (message : ServerMessage) (rooms : List (String × Room))
    (room_name : String) (ex : Option Nat) (room : Room)
    (h : alGet rooms room_name = some room) :
    broadcast_message message rooms room_name ex =
      (alSet rooms room_name
        { clients := (fanOut (parse_message_for_display message) ex room.clients).1,
          history := appendEvent room.history message },
        (fanOut (parse_message_for_display message) ex room.clients).2) := by
  simp [broadcast_message, h]

/-- An anonymous sender's chat attempt: inline notice to the sender only. -/
theorem handle_chat_message_anon (content : String) (cid : Nat) (s : ChatState)
    (room_name : String) (room : Room) (c : Client)
    (hroom : alGet s.rooms room_name = some room)
    (hc : alGet room.clients cid = some c)
    (hanon : c.username = "anonymous")
    (hne : (trimStr content).data.isEmpty = false) :
    handle_chat_message content cid s room_name =
      ({ s with
          rooms := alSet s.rooms room_name
            ({ room with clients := alSet room.clients cid (sendTo c chatGateNotice).1 }) },
        [Effect.lockAcquire, Effect.sendAttempt cid chatGateNotice,
          Effect.lockRelease]) := by
  simp [handle_chat_message, hne, hroom, hc, hanon]

/-- An anonymous requester's history attempt: inline notice to it only. -/
theorem handle_load_full_history_anon (cid : Nat) (s : ChatState)
    (room_name : String) (room : Room) (c : Client)
    (hroom : alGet s.rooms room_name = some room)
    (hc : alGet room.clients cid = some c)
    (hanon : c.username = "anonymous") :
    handle_load_full_history cid s room_name =
      ({ s with
          rooms := alSet s.rooms room_name
            ({ room with clients := alSet room.clients cid (sendTo c historyGateNotice).1 }) },
        [Effect.lockAcquire, Effect.sendAttempt cid historyGateNotice,
          Effect.lockRelease]) := by
  simp [handle_load_full_history, hroom, hc, hanon]

/-- A named requester's history request: one store read, full replay. -/
theorem handle_load_full_history_named (cid : Nat) (s : ChatState)
    (room_name : String) (room : Room) (c : Client)
    (hroom : alGet s.rooms room_name = some room)
    (hc : alGet room.clients cid = some c)
    (hname : c.username ≠ "anonymous") :
    handle_load_full_history cid s room_name =
      ({ s with
          rooms := alSet s.rooms room_name
            ({ room with
                clients := alSet room.clients cid
                  (replay cid c ((load_history s.store room_name MAX_HISTORY_SIZE).map
                    parse_message_for_display)).1 }) },
        Effect.lockAcquire :: Effect.storeRead room_name MAX_HISTORY_SIZE ::
          (replay cid c ((load_history s.store room_name MAX_HISTORY_SIZE).map
            parse_message_for_display)).2.1 ++ [Effect.lockRelease]) := by
  simp [handle_load_full_history, hroom, hc, hname]

/-- A named sender's chat message: broadcast excluding the sender, then the
store write, all before the guard is released. -/
theorem handle_chat_message_named (content : String) (cid : Nat) (s : ChatState)
    (room_name : String) (room : Room) (c : Client)
    (hroom : alGet s.rooms room_name = some room)
    (hc : alGet room.clients cid = some c)
    (hname : c.username ≠ "anonymous")
    (hne : (trimStr content).data.isEmpty = false) :
    handle_chat_message content cid s room_name =
      ({ rooms := (broadcast_message (ServerMessage.NewMessage c.username content)
            s.rooms room_name (some cid)).1,
         store := s.store ++ [(room_name, ServerMessage.NewMessage c.username content)] },
        Effect.lockAcquire ::
          (broadcast_message (ServerMessage.NewMessage c.username content)
            s.rooms room_name (some cid)).2 ++
          [Effect.storeWrite room_name (ServerMessage.NewMessage c.username content),
            Effect.lockRelease]) := by
  simp [handle_chat_message, hne, hroom, hc, hname]

/-- An anonymous client's disconnect: removal only, no broadcast, no write. -/
theorem cleanup_client_anon (s : ChatState) (cid : Nat) (room_name : String)
    (room : Room) (c : Client)
    (hroom : alGet s.rooms room_name = some room)
    (hc : alGet room.clients cid = some c)
    (hanon : c.username = "anonymous") :
    cleanup_client s cid room_name =
      ({ s with
          rooms :=
            if (alRemove room.clients cid).isEmpty then alRemove s.rooms room_name
            else alSet s.rooms room_name ({ room with clients := alRemove room.clients cid }) },
        [Effect.lockAcquire, Effect.lockRelease]) := by
  simp [cleanup_client, hroom, hc, hanon]

/-- A named client's disconnect: removal, then `UserLeft` broadcast with no
exclusion and its store write under the second guard. -/
theorem cleanup_client_named (s : ChatState) (cid : Nat) (room_name : String)
    (room : Room) (c : Client)
    (hroom : alGet s.rooms room_name = some room)
    (hc : alGet room.clients cid = some c)
    (hname : c.username ≠ "anonymous") :
    cleanup_client s cid room_name =
      (let rooms2 :=
        if (alRemove room.clients cid).isEmpty then alRemove s.rooms room_name
        else alSet s.rooms room_name { room with clients := alRemove room.clients cid }
      let b := broadcast_message (ServerMessage.UserLeft c.username) rooms2 room_name none
      ({ rooms := b.1, store := s.store ++ [(room_name, ServerMessage.UserLeft c.username)] },
        Effect.lockAcquire :: Effect.lockRelease :: Effect.lockAcquire :: b.2 ++
          [Effect.storeWrite room_name (ServerMessage.UserLeft c.username),
            Effect.lockRelease])) := by
  simp [cleanup_client, hroom, hc, hname]

/-! ## Membership and preservation lemmas -/

theorem alGet_eq_none_iff {α β : Type} [DecidableEq α] (l : List (α × β)) (k : α) :
    alGet l k = none ↔ k ∉ l.map Prod.fst := by
  induction l with
  | nil => simp [alGet]
  | cons p t ih =>
    obtain ⟨a, b⟩ := p
    by_cases hk : a = k
    · subst hk
      simp [alGet]
    · simp [alGet, hk, ih, Ne.symm hk]

theorem alGet_alRemove_self {α β : Type} [DecidableEq α] (l : List (α × β)) (k : α)
    (hnd : (l.map Prod.fst).Nodup) : alGet (alRemove l k) k = none := by
  induction l with
  | nil => simp [alRemove, alGet]
  | cons p t ih =>
    obtain ⟨a, b⟩ := p
    rw [List.map_cons, List.nodup_cons] at hnd
    by_cases hk : a = k
    · subst hk
      have h1 : alRemove ((a, b) :: t) a = t := by simp [alRemove]
      rw [h1]
      exact (alGet_eq_none_iff t a).mpr hnd.1
    · have h1 : alRemove ((a, b) :: t) k = (a, b) :: alRemove t k := by
        simp [alRemove, hk]
      rw [h1]
      simp [alGet, hk, ih hnd.2]

/-- An entry with a different key survives an `alSet` unchanged. -/
theorem mem_alSet_of_ne {α β : Type} [DecidableEq α] (l : List (α × β)) (k : α)
    (v : β) (id : α) (c : β) (hm : (id, c) ∈ l) (hne : id ≠ k) :
    (id, c) ∈ alSet l k v := by
  induction l with
  | nil => simp at hm
  | cons p t ih =>
    obtain ⟨a, b⟩ := p
    by_cases hk : a = k
    · subst hk
      have h1 : alSet ((a, b) :: t) a v = (a, v) :: t := by simp [alSet]
      rw [h1]
      rcases List.mem_cons.mp hm with h | h
      · simp only [Prod.mk.injEq] at h
        exact absurd h.1 hne
      · exact List.mem_cons_of_mem _ h
    · have h1 : alSet ((a, b) :: t) k v = (a, b) :: alSet t k v := by
        simp [alSet, hk]
      rw [h1]
      rcases List.mem_cons.mp hm with h | h
      · rw [h]
        exact List.mem_cons_self _ _
      · exact List.mem_cons_of_mem _ (ih h)

/-- Every effect of a fan-out is a delivery attempt of the single rendered
string to a non-excluded client. -/
theorem fanOut_mem (rendered : String) (ex : Option Nat) (cs : List (Nat × Client))
    (e : Effect) (he : e ∈ (fanOut rendered ex cs).2) :
    ∃ id, e = Effect.sendAttempt id rendered ∧ ex ≠ some id ∧
      id ∈ cs.map Prod.fst := by
  rw [fanOut_effects] at he
  obtain ⟨p, hp, hpe⟩ := List.mem_filterMap.mp he
  by_cases hx : ex = some p.1
  · simp [hx] at hpe
  · simp [hx] at hpe
    exact ⟨p.1, hpe.symm, hx, List.mem_map.mpr ⟨p, hp, rfl⟩⟩

/-- Every non-excluded occupant gets exactly its delivery attempt. -/
theorem fanOut_attempt_mem (rendered : String) (ex : Option Nat)
    (cs : List (Nat × Client)) (id : Nat) (c : Client)
    (hm : (id, c) ∈ cs) (hx : ex ≠ some id) :
    Effect.sendAttempt id rendered ∈ (fanOut rendered ex cs).2 := by
  rw [fanOut_effects]
  refine List.mem_filterMap.mpr ⟨(id, c), hm, ?_⟩
  simp [hx]

/-- The excluded client's entry is left entirely untouched by the fan-out. -/
theorem fanOut_excluded_untouched (rendered : String) (S : Nat)
    (cs : List (Nat × Client)) (c : Client) (h : alGet cs S = some c) :
    alGet (fanOut rendered (some S) cs).1 S = some c := by
  induction cs with
  | nil => simp [alGet] at h
  | cons p t ih =>
    obtain ⟨id, cc⟩ := p
    by_cases hS : id = S
    · subst hS
      have hx : (some id : Option Nat) = some id := rfl
      simp [alGet] at h
      simp [fanOut, alGet, h]
    · have hx : ¬ (some S : Option Nat) = some id := by
        simp
        exact fun hc => hS hc.symm
      have hh : alGet t S = some c := by
        simpa [alGet, hS] using h
      simp [fanOut, hx, alGet, hS, ih hh]

/-- The fan-out never changes any client's username. -/
theorem fanOut_usernames (rendered : String) (ex : Option Nat)
    (cs : List (Nat × Client)) (id : Nat) :
    (alGet (fanOut rendered ex cs).1 id).map Client.username
      = (alGet cs id).map Client.username := by
  induction cs with
  | nil => simp [fanOut]
  | cons p t ih =>
    obtain ⟨i, cc⟩ := p
    by_cases hx : ex = some i
    · subst hx
      by_cases hi : i = id
      · subst hi
        simp [fanOut, alGet]
      · simp [fanOut, alGet, hi, ih]
    · by_cases hi : i = id
      · subst hi
        simp [fanOut, hx, alGet, (sendTo_meta cc rendered).1]
      · simp [fanOut, hx, alGet, hi, ih]

/-- Every broadcast effect is a delivery attempt. -/
theorem broadcast_effects_sends (message : ServerMessage)
    (rooms : List (String × Room)) (room_name : String) (ex : Option Nat)
    (e : Effect) (he : e ∈ (broadcast_message message rooms room_name ex).2) :
    e.isSendAttempt = true := by
  rcases hr : alGet rooms room_name with _ | room
  · simp [broadcast_message, hr] at he
  · rw [broadcast_some message rooms room_name ex room hr] at he
    obtain ⟨id, he1, _, _⟩ :=
      fanOut_mem (parse_message_for_display message) ex room.clients e he
    rw [he1]
    rfl

/-- Every replay effect is a delivery attempt to the replayed client. -/
theorem replay_mem (cid : Nat) (c : Client) (msgs : List String) (e : Effect)
    (he : e ∈ (replay cid c msgs).2.1) : ∃ t, e = Effect.sendAttempt cid t := by
  induction msgs generalizing c with
  | nil => simp [replay] at he
  | cons m rest ih =>
    by_cases hok : c.sendOk
    · simp [replay, sendTo, hok] at he
      rcases he with he | he
      · exact ⟨m, he⟩
      · exact ih _ he
    · simp [replay, sendTo, hok] at he
      exact ⟨m, he⟩

/-- A successful set-username (room and client present, working sender):
hydrate when cold, rename, full cache replay to the setter, `UserJoined`
broadcast excluding the setter, and the join persisted before the guard
drops. -/
theorem handle_set_username_ok (username : String) (cid : Nat) (s : ChatState)
    (room_name : String) (room0 : Room) (c : Client)
    (hroom : alGet s.rooms room_name = some room0)
    (hc : alGet room0.clients cid = some c)
    (hok : c.sendOk = true) :
    handle_set_username username cid s room_name =
      (let hist1 :=
        if room0.history.isEmpty
          then load_history s.store room_name MAX_HISTORY_SIZE else room0.history
       let c1 : Client :=
        { username := username, sendOk := c.sendOk,
          inbox := c.inbox ++ hist1.map parse_message_for_display }
       let rooms1 :=
        alSet s.rooms room_name
          { clients := alSet room0.clients cid c1, history := hist1 }
       let b :=
        broadcast_message (ServerMessage.UserJoined username) rooms1
          room_name (some cid)
       ({ rooms := b.1,
          store := s.store ++ [(room_name, ServerMessage.UserJoined username)] },
        Effect.lockAcquire ::
          ((if room0.history.isEmpty
              then [Effect.storeRead room_name MAX_HISTORY_SIZE] else []) ++
            ((hist1.map parse_message_for_display).map (Effect.sendAttempt cid) ++
              (b.2 ++
                [Effect.storeWrite room_name (ServerMessage.UserJoined username),
                  Effect.lockRelease]))))) := by
  by_cases hyd : room0.history.isEmpty <;>
    simp [handle_set_username, hroom, hc, hyd,
      replay_all_ok cid { c with username := username } _ (by simpa using hok)]

/-! ## Claims -/

/-- C1: the claim that the cache never holds more than
`IN_MEMORY_CACHE_SIZE` (50) entries under hydrate and append operations is
false: hydration assigns up to `MAX_HISTORY_SIZE` (1000) store records to the
cache, so with 51 events in the store a single set-username hydrate leaves the
cache at 51 entries. -/
theorem C1_counterexample :
    (alGet (handle_set_username "alice" 0 exColdState "r").1.rooms "r").map
        (fun room => room.history.length) = some 51 ∧
      ¬ (51 ≤ IN_MEMORY_CACHE_SIZE) := by
  constructor
  · decide
  · decide

/-- C1 (amended): every broadcast updates the room's cache by push-then-evict
(`appendEvent`), and for sequences of appended events starting from an empty
cache the bound holds exactly as claimed: the length never exceeds
`IN_MEMORY_CACHE_SIZE` and the cache always equals the most recent events of
the stream in chronological order.  The bound does not survive hydration,
which may install up to `MAX_HISTORY_SIZE` entries (see the counterexample). -/
theorem C1_cache_bound (rooms : List (String × Room)) (room_name : String)
    (m : ServerMessage) (ex : Option Nat) (room : Room)
    (L : List ServerMessage)
    (h : alGet rooms room_name = some room) :
    ((alGet (broadcast_message m rooms room_name ex).1 room_name).map Room.history
        = some (appendEvent room.history m)) ∧
      (L.foldl appendEvent []).length ≤ IN_MEMORY_CACHE_SIZE ∧
      L.foldl appendEvent [] = L.drop (L.length - IN_MEMORY_CACHE_SIZE) := by
  have hfold := foldl_appendEvent L [] (by simp [IN_MEMORY_CACHE_SIZE])
  simp only [List.nil_append] at hfold
  refine ⟨?_, ?_, hfold⟩
  · rw [broadcast_some m rooms room_name ex room h,
      alGet_alSet_self _ _ _ (by simp [h])]
    rfl
  · rw [hfold, List.length_drop]
    omega

/-- Witness for C1_cache_bound at a concrete input. -/
theorem C1_cache_bound_witness :
    ((alGet (broadcast_message (ServerMessage.UserJoined "x") exState.rooms "r"
          none).1 "r").map Room.history
        = some (appendEvent [] (ServerMessage.UserJoined "x"))) ∧
      ((List.replicate 60 (ServerMessage.UserJoined "x")).foldl
          appendEvent []).length ≤ IN_MEMORY_CACHE_SIZE ∧
      (List.replicate 60 (ServerMessage.UserJoined "x")).foldl appendEvent []
        = (List.replicate 60 (ServerMessage.UserJoined "x")).drop
            ((List.replicate 60 (ServerMessage.UserJoined "x")).length
              - IN_MEMORY_CACHE_SIZE) :=
  C1_cache_bound exState.rooms "r" (ServerMessage.UserJoined "x") none
    { clients := [(1, exAlice), (2, exBob)], history := [] }
    (List.replicate 60 (ServerMessage.UserJoined "x")) (by decide)

/-- C7: the claim that an anonymous session's history request is permitted and
handled like a named session's is false: the code rejects it with an inline
notice and issues no store read (a named session's request issues one). -/
theorem C7_counterexample :
    (handle_load_full_history 1 exAnonState "r").2
        = [Effect.lockAcquire, Effect.sendAttempt 1 historyGateNotice,
            Effect.lockRelease] ∧
      (handle_load_full_history 1 exAnonState "r").2.filter Effect.isStoreRead
        = [] ∧
      (handle_load_full_history 1 exWarmState "r").2.filter Effect.isStoreRead
        = [Effect.storeRead "r" MAX_HISTORY_SIZE] := by
  refine ⟨rfl, rfl, rfl⟩

/-- C7 (amended): a session still named with the anonymous sentinel that
requests history is rejected: it gets the inline notice (sent to it only, not
broadcast), no store read happens, and no state beyond its own inbox changes. -/
theorem C7_anon_history_rejected (cid : Nat) (s : ChatState) (room_name : String)
    (room : Room) (c : Client)
    (hroom : alGet s.rooms room_name = some room)
    (hc : alGet room.clients cid = some c)
    (hanon : c.username = "anonymous") :
    (handle_load_full_history cid s room_name).2
        = [Effect.lockAcquire, Effect.sendAttempt cid historyGateNotice,
            Effect.lockRelease] ∧
      (handle_load_full_history cid s room_name).1.store = s.store ∧
      ((alGet (handle_load_full_history cid s room_name).1.rooms room_name).map
          Room.history = some room.history) ∧
      (∀ id, id ≠ cid →
        (alGet (handle_load_full_history cid s room_name).1.rooms room_name).bind
            (fun r2 => alGet r2.clients id) = alGet room.clients id) := by
  rw [handle_load_full_history_anon cid s room_name room c hroom hc hanon]
  refine ⟨rfl, rfl, ?_, ?_⟩
  · rw [alGet_alSet_self _ _ _ (by simp [hroom])]
    rfl
  · intro id hid
    rw [alGet_alSet_self _ _ _ (by simp [hroom])]
    simp only [Option.some_bind]
    exact alGet_alSet_ne _ _ _ _ hid

/-- Witness for C7_anon_history_rejected at a concrete input. -/
theorem C7_anon_history_rejected_witness :
    (handle_load_full_history 1 exAnonState "r").2
        = [Effect.lockAcquire, Effect.sendAttempt 1 historyGateNotice,
            Effect.lockRelease] ∧
      (handle_load_full_history 1 exAnonState "r").1.store = exAnonState.store ∧
      ((alGet (handle_load_full_history 1 exAnonState "r").1.rooms "r").map
          Room.history = some ({ clients := [(1, exAnon)], history := [] } : Room).history) ∧
      (∀ id, id ≠ 1 →
        (alGet (handle_load_full_history 1 exAnonState "r").1.rooms "r").bind
            (fun r2 => alGet r2.clients id)
          = alGet ({ clients := [(1, exAnon)], history := [] } : Room).clients id) :=
  C7_anon_history_rejected 1 exAnonState "r"
    { clients := [(1, exAnon)], history := [] } exAnon (by decide) (by decide) (by decide)

/-- A delivery attempt is not a store read. -/
theorem isStoreRead_eq_false_of_send (e : Effect) (h : e.isSendAttempt = true) :
    e.isStoreRead = false := by
  cases e <;> simp_all [Effect.isSendAttempt, Effect.isStoreRead]

/-- A list of delivery attempts contains no store read. -/
theorem filter_isStoreRead_sends (l : List Effect)
    (h : ∀ e ∈ l, e.isSendAttempt = true) : l.filter Effect.isStoreRead = [] := by
  induction l with
  | nil => rfl
  | cons e t ih =>
    rw [List.filter_cons, isStoreRead_eq_false_of_send e (h e (by simp))]
    simp only [Bool.false_eq_true, if_false]
    exact ih (fun e2 he2 => h e2 (by simp [he2]))

/-- Every effect of a replay is a delivery attempt. -/
theorem replay_sends (cid : Nat) (c : Client) (msgs : List String) :
    ∀ e ∈ (replay cid c msgs).2.1, e.isSendAttempt = true := by
  intro e he
  obtain ⟨t, ht⟩ := replay_mem cid c msgs e he
  rw [ht]
  rfl

/-- C2: the claim that the store is read at most once per room lifetime, and
that a second history request issues no second read, is false: each history
request reads the store.  Here two consecutive requests in a never-emptied
room each issue one read. -/
theorem C2_counterexample :
    ((handle_load_full_history 1 exWarmState "r").2.filter
        Effect.isStoreRead).length = 1 ∧
      ((handle_load_full_history 1
          (handle_load_full_history 1 exWarmState "r").1 "r").2.filter
        Effect.isStoreRead).length = 1 ∧
      ((alGet (handle_load_full_history 1 exWarmState "r").1.rooms "r").map
        (fun room => room.clients.isEmpty)) = some false := by
  refine ⟨rfl, rfl, rfl⟩

/-- C2 (amended): the set-username hydrate reads the store only while the
cache is empty — a warm cache makes a set-username issue no read at all — but
every history request from a named session issues its own store read, so store
reads are not bounded by one per room lifetime. -/
theorem C2_store_reads (username : String) (cid : Nat) (s : ChatState)
    (room_name : String) (room : Room) (c : Client)
    (hroom : alGet s.rooms room_name = some room)
    (hc : alGet room.clients cid = some c) :
    (room.history ≠ [] →
      (handle_set_username username cid s room_name).2.filter
        Effect.isStoreRead = []) ∧
    (c.username ≠ "anonymous" →
      (handle_load_full_history cid s room_name).2.filter Effect.isStoreRead
        = [Effect.storeRead room_name MAX_HISTORY_SIZE]) := by
  constructor
  · intro hne
    have hyd : room.history.isEmpty = false := by
      cases hh : room.history with
      | nil => exact absurd hh hne
      | cons a t => rfl
    by_cases hok2 : (replay cid { c with username := username }
        (room.history.map parse_message_for_display)).2.2
    · simp only [handle_set_username, hroom, hc, hyd, Bool.false_eq_true,
        if_false, List.nil_append, hok2, if_true]
      simp only [List.filter_cons, List.filter_append]
      rw [filter_isStoreRead_sends _ (replay_sends cid _ _),
        filter_isStoreRead_sends _
          (fun e he => broadcast_effects_sends _ _ _ _ e he)]
      simp [Effect.isStoreRead]
    · simp only [handle_set_username, hroom, hc, hyd, Bool.false_eq_true,
        if_false, List.nil_append, hok2]
      simp only [List.filter_cons, List.filter_append]
      rw [filter_isStoreRead_sends _ (replay_sends cid _ _)]
      simp [Effect.isStoreRead]
  · intro hname
    rw [handle_load_full_history_named cid s room_name room c hroom hc hname]
    simp only [List.filter_cons, List.filter_append]
    rw [filter_isStoreRead_sends _ (replay_sends cid _ _)]
    simp [Effect.isStoreRead]

/-- Witness for C2_store_reads at a concrete input. -/
theorem C2_store_reads_witness :
    (([ServerMessage.NewMessage "x" "cached"] : List ServerMessage) ≠ [] →
      (handle_set_username "carol" 1 exWarmState "r").2.filter
        Effect.isStoreRead = []) ∧
    (exAlice.username ≠ "anonymous" →
      (handle_load_full_history 1 exWarmState "r").2.filter Effect.isStoreRead
        = [Effect.storeRead "r" MAX_HISTORY_SIZE]) :=
  C2_store_reads "carol" 1 exWarmState "r"
    { clients := [(1, exAlice)],
      history := [ServerMessage.NewMessage "x" "cached"] }
    exAlice (by decide) (by decide)

/-- C3: the claim that a named session's history request replays the room's
in-memory cache is false: the code replays the store's content instead.  With
a warm cache `[NewMessage "x" "cached"]` differing from the store's
`[NewMessage "y" "stored"]`, the requester receives the store's rendering, not
the cache's (which stays untouched). -/
theorem C3_counterexample :
    (((alGet (handle_load_full_history 1 exWarmState "r").1.rooms "r").bind
        (fun room => alGet room.clients 1)).map Client.inbox)
        = some ["[y] stored"] ∧
      (["[y] stored"] : List String) ≠ ["[x] cached"] ∧
      ((alGet (handle_load_full_history 1 exWarmState "r").1.rooms "r").map
        Room.history = some [ServerMessage.NewMessage "x" "cached"]) := by
  refine ⟨rfl, by decide, rfl⟩

/-- C3 (amended): a named session's history request replays, to the requester
only, the renderings of the store's most recent `MAX_HISTORY_SIZE` events for
the room in chronological order (independently of the cache, with no
hydration); the cache content, the other sessions and the store itself are
unchanged. -/
theorem C3_history_replay (cid : Nat) (s : ChatState) (room_name : String)
    (room : Room) (c : Client)
    (hroom : alGet s.rooms room_name = some room)
    (hc : alGet room.clients cid = some c)
    (hname : c.username ≠ "anonymous")
    (hok : c.sendOk = true) :
    ∃ room2,
      alGet (handle_load_full_history cid s room_name).1.rooms room_name
          = some room2 ∧
        alGet room2.clients cid
            = some { c with
                inbox := c.inbox ++
                  (load_history s.store room_name MAX_HISTORY_SIZE).map
                    parse_message_for_display } ∧
        room2.history = room.history ∧
        (∀ id, id ≠ cid → alGet room2.clients id = alGet room.clients id) ∧
        (handle_load_full_history cid s room_name).1.store = s.store ∧
        (∀ e ∈ (handle_load_full_history cid s room_name).2,
          e.isSendAttempt = true → ∃ t, e = Effect.sendAttempt cid t) := by
  rw [handle_load_full_history_named cid s room_name room c hroom hc hname]
  refine ⟨_, alGet_alSet_self _ _ _ (by simp [hroom]), ?_, rfl, ?_, rfl, ?_⟩
  · show alGet (alSet room.clients cid _) cid = _
    rw [replay_all_ok cid c _ hok]
    exact alGet_alSet_self _ _ _ (by simp [hc])
  · intro id hid
    exact alGet_alSet_ne _ _ _ _ hid
  · intro e he hsend
    rcases List.mem_cons.mp he with he1 | he1
    · rw [he1] at hsend
      simp [Effect.isSendAttempt] at hsend
    rcases List.mem_cons.mp he1 with he2 | he2
    · rw [he2] at hsend
      simp [Effect.isSendAttempt] at hsend
    rcases List.mem_append.mp he2 with he3 | he3
    · exact replay_mem cid c _ e he3
    · rw [List.mem_singleton] at he3
      rw [he3] at hsend
      simp [Effect.isSendAttempt] at hsend

/-- Witness for C3_history_replay at a concrete input. -/
theorem C3_history_replay_witness :
    ∃ room2,
      alGet (handle_load_full_history 1 exWarmState "r").1.rooms "r"
          = some room2 ∧
        alGet room2.clients 1
            = some { exAlice with
                inbox := exAlice.inbox ++
                  (load_history exWarmState.store "r" MAX_HISTORY_SIZE).map
                    parse_message_for_display } ∧
        room2.history
            = ({ clients := [(1, exAlice)], history := [ServerMessage.NewMessage "x" "cached"] } : Room).history ∧
        (∀ id, id ≠ 1 → alGet room2.clients id
          = alGet ({ clients := [(1, exAlice)], history := [ServerMessage.NewMessage "x" "cached"] } : Room).clients id) ∧
        (handle_load_full_history 1 exWarmState "r").1.store = exWarmState.store ∧
        (∀ e ∈ (handle_load_full_history 1 exWarmState "r").2,
          e.isSendAttempt = true → ∃ t, e = Effect.sendAttempt 1 t) :=
  C3_history_replay 1 exWarmState "r"
    { clients := [(1, exAlice)],
      history := [ServerMessage.NewMessage "x" "cached"] }
    exAlice (by decide) (by decide) (by decide) (by decide)

/-- C4: a session still named with the anonymous sentinel, processing any
frame that is not a set-name intent, never triggers a broadcast (all delivery
attempts target the session itself), never persists anything, leaves the
cache, the store and every username unchanged; a non-empty chat attempt is
answered with exactly the inline chat gating notice, and a history request is
answered with exactly the inline history gating notice — so no successful
history replay (no store read, no replayed messages) ever happens. -/
theorem C4_anonymous_gating (text : String) (cid : Nat) (s : ChatState)
    (room_name : String) (room : Room) (c : Client)
    (hroom : alGet s.rooms room_name = some room)
    (hc : alGet room.clients cid = some c)
    (hanon : c.username = "anonymous")
    (hnoset : ∀ u, parseFrame text ≠ Intent.setUsername u) :
    (processFrame text cid s room_name).1.store = s.store ∧
      (∀ e ∈ (processFrame text cid s room_name).2, e.isStoreWrite = false) ∧
      (∀ id t, Effect.sendAttempt id t ∈ (processFrame text cid s room_name).2
        → id = cid) ∧
      ((alGet (processFrame text cid s room_name).1.rooms room_name).map
        Room.history = some room.history) ∧
      (∀ id, ((alGet (processFrame text cid s room_name).1.rooms room_name).bind
          (fun r2 => alGet r2.clients id)).map Client.username
        = (alGet room.clients id).map Client.username) ∧
      (∀ content, parseFrame text = Intent.chat content →
        (trimStr content).data.isEmpty = false →
        (processFrame text cid s room_name).2
          = [Effect.lockAcquire, Effect.sendAttempt cid chatGateNotice,
              Effect.lockRelease]) ∧
      (parseFrame text = Intent.loadHistory →
        (processFrame text cid s room_name).2
          = [Effect.lockAcquire, Effect.sendAttempt cid historyGateNotice,
              Effect.lockRelease]) := by
  cases hpf : parseFrame text with
  | setUsername u => exact absurd hpf (hnoset u)
  | loadHistory =>
    simp only [processFrame, hpf]
    rw [handle_load_full_history_anon cid s room_name room c hroom hc hanon]
    refine ⟨rfl, ?_, ?_, ?_, ?_, ?_, fun _ => rfl⟩
    · intro e he
      rcases List.mem_cons.mp he with h | h
      · rw [h]
        rfl
      rcases List.mem_cons.mp h with h2 | h2
      · rw [h2]
        rfl
      · rw [List.mem_singleton] at h2
        rw [h2]
        rfl
    · intro id t hmem
      simp only [List.mem_cons, List.not_mem_nil, or_false] at hmem
      rcases hmem with h | h | h
      · exact absurd h (by simp)
      · exact (Effect.sendAttempt.injEq _ _ _ _ ▸ h).1
      · exact absurd h (by simp)
    · rw [alGet_alSet_self _ _ _ (by simp [hroom])]
      rfl
    · intro id
      rw [alGet_alSet_self _ _ _ (by simp [hroom]), Option.some_bind]
      refine alGet_alSet_username room.clients cid id _ (fun c2 hc2 => ?_)
      rw [hc] at hc2
      injection hc2 with h
      rw [← h]
      exact (sendTo_meta c historyGateNotice).1
    · exact fun content hcontra hne => absurd hcontra (by simp)
  | chat content =>
    by_cases hce : (trimStr content).data.isEmpty
    · have hred : processFrame text cid s room_name = (s, []) := by
        simp [processFrame, hpf, handle_chat_message, hce]
      rw [hred]
      refine ⟨rfl, ?_, ?_, ?_, ?_, ?_, fun hcontra => absurd hcontra (by simp)⟩
      · intro e he
        exact absurd he (List.not_mem_nil e)
      · intro id t hmem
        exact absurd hmem (List.not_mem_nil _)
      · rw [hroom]
        rfl
      · intro id
        rw [hroom, Option.some_bind]
      · intro content2 hch hne
        injection hch with h
        rw [← h] at hne
        rw [hce] at hne
        exact absurd hne (by simp)
    · simp only [processFrame, hpf]
      rw [handle_chat_message_anon content cid s room_name room c hroom hc hanon
        (by simpa using hce)]
      refine ⟨rfl, ?_, ?_, ?_, ?_, ?_, fun hcontra => absurd hcontra (by simp)⟩
      · intro e he
        rcases List.mem_cons.mp he with h | h
        · rw [h]
          rfl
        rcases List.mem_cons.mp h with h2 | h2
        · rw [h2]
          rfl
        · rw [List.mem_singleton] at h2
          rw [h2]
          rfl
      · intro id t hmem
        simp only [List.mem_cons, List.not_mem_nil, or_false] at hmem
        rcases hmem with h | h | h
        · exact absurd h (by simp)
        · exact (Effect.sendAttempt.injEq _ _ _ _ ▸ h).1
        · exact absurd h (by simp)
      · rw [alGet_alSet_self _ _ _ (by simp [hroom])]
        rfl
      · intro id
        rw [alGet_alSet_self _ _ _ (by simp [hroom]), Option.some_bind]
        refine alGet_alSet_username room.clients cid id _ (fun c2 hc2 => ?_)
        rw [hc] at hc2
        injection hc2 with h
        rw [← h]
        exact (sendTo_meta c chatGateNotice).1
      · intro content2 hch hne
        rfl
  | ignore =>
    have hred : processFrame text cid s room_name = (s, []) := by
      simp [processFrame, hpf]
    rw [hred]
    refine ⟨rfl, ?_, ?_, ?_, ?_, ?_, fun hcontra => absurd hcontra (by simp)⟩
    · intro e he
      exact absurd he (List.not_mem_nil e)
    · intro id t hmem
      exact absurd hmem (List.not_mem_nil _)
    · rw [hroom]
      rfl
    · intro id
      rw [hroom, Option.some_bind]
    · exact fun content hcontra hne => absurd hcontra (by simp)

/-- Witness for C4_anonymous_gating at a concrete input. -/
theorem C4_anonymous_gating_witness :
    (processFrame " hello " 1 exAnonState "r").1.store = exAnonState.store ∧
      (∀ e ∈ (processFrame " hello " 1 exAnonState "r").2,
        e.isStoreWrite = false) ∧
      (∀ id t, Effect.sendAttempt id t ∈ (processFrame " hello " 1 exAnonState "r").2
        → id = 1) ∧
      ((alGet (processFrame " hello " 1 exAnonState "r").1.rooms "r").map
        Room.history = some ({ clients := [(1, exAnon)], history := [] } : Room).history) ∧
      (∀ id, ((alGet (processFrame " hello " 1 exAnonState "r").1.rooms "r").bind
          (fun r2 => alGet r2.clients id)).map Client.username
        = (alGet ({ clients := [(1, exAnon)], history := [] } : Room).clients id).map
            Client.username) ∧
      (∀ content, parseFrame " hello " = Intent.chat content →
        (trimStr content).data.isEmpty = false →
        (processFrame " hello " 1 exAnonState "r").2
          = [Effect.lockAcquire, Effect.sendAttempt 1 chatGateNotice,
              Effect.lockRelease]) ∧
      (parseFrame " hello " = Intent.loadHistory →
        (processFrame " hello " 1 exAnonState "r").2
          = [Effect.lockAcquire, Effect.sendAttempt 1 historyGateNotice,
              Effect.lockRelease]) :=
  C4_anonymous_gating " hello " 1 exAnonState "r"
    { clients := [(1, exAnon)], history := [] } exAnon (by decide) (by decide)
    (by decide)
    (by
      intro u h
      rw [show parseFrame " hello " = Intent.chat "hello" from rfl] at h
      exact absurd h (by simp))

/-- C5: broadcast exclusion.  The effects of a broadcast are exactly one
delivery attempt of the single rendered string per non-excluded client, in
iteration order; the excluded session gets no attempt and its entry is left
untouched; every other occupant gets its attempt regardless of any send
failures; and no client is removed or renamed by the fan-out. -/
theorem C5_broadcast_exclusion (message : ServerMessage)
    (rooms : List (String × Room)) (room_name : String) (ex : Option Nat)
    (room : Room) (h : alGet rooms room_name = some room) :
    (broadcast_message message rooms room_name ex).2
        = room.clients.filterMap (fun p =>
            if ex = some p.1 then none
            else some (Effect.sendAttempt p.1 (parse_message_for_display message))) ∧
      (∀ S t, ex = some S →
        Effect.sendAttempt S t ∉ (broadcast_message message rooms room_name ex).2) ∧
      (∀ id c, (id, c) ∈ room.clients → ex ≠ some id →
        Effect.sendAttempt id (parse_message_for_display message)
          ∈ (broadcast_message message rooms room_name ex).2) ∧
      (∃ room2,
        alGet (broadcast_message message rooms room_name ex).1 room_name
            = some room2 ∧
          room2.clients.map (fun p => (p.1, p.2.username, p.2.sendOk))
            = room.clients.map (fun p => (p.1, p.2.username, p.2.sendOk)) ∧
          (∀ S c2, ex = some S → alGet room.clients S = some c2 →
            alGet room2.clients S = some c2)) := by
  rw [broadcast_some message rooms room_name ex room h]
  refine ⟨fanOut_effects _ _ _, ?_, ?_, ?_⟩
  · intro S t hS hmem
    obtain ⟨id, he, hx, _⟩ := fanOut_mem _ _ _ _ hmem
    injection he with h1 h2
    exact hx (h1 ▸ hS)
  · intro id c hm hx
    exact fanOut_attempt_mem _ _ _ id c hm hx
  · refine ⟨_, alGet_alSet_self _ _ _ (by simp [h]), ?_, ?_⟩
    · show (fanOut (parse_message_for_display message) ex room.clients).1.map _ = _
      rw [fanOut_clients, List.map_map]
      apply List.map_congr_left
      intro p hp
      by_cases hx : ex = some p.1
      · simp [hx]
      · simp [hx, (sendTo_meta p.2 (parse_message_for_display message)).1,
          (sendTo_meta p.2 (parse_message_for_display message)).2]
    · intro S c2 hS hget
      subst hS
      exact fanOut_excluded_untouched _ S room.clients c2 hget

/-- Witness for C5_broadcast_exclusion at a concrete input. -/
theorem C5_broadcast_exclusion_witness :
    (broadcast_message (ServerMessage.NewMessage "alice" "hi") exState.rooms "r"
          (some 1)).2
        = ({ clients := [(1, exAlice), (2, exBob)], history := [] } : Room).clients.filterMap
            (fun p =>
              if some 1 = some p.1 then none
              else some (Effect.sendAttempt p.1
                (parse_message_for_display (ServerMessage.NewMessage "alice" "hi")))) ∧
      (∀ S t, (some 1 : Option Nat) = some S →
        Effect.sendAttempt S t
          ∉ (broadcast_message (ServerMessage.NewMessage "alice" "hi")
              exState.rooms "r" (some 1)).2) ∧
      (∀ id c, (id, c) ∈ ({ clients := [(1, exAlice), (2, exBob)], history := [] } : Room).clients
        → (some 1 : Option Nat) ≠ some id →
        Effect.sendAttempt id
            (parse_message_for_display (ServerMessage.NewMessage "alice" "hi"))
          ∈ (broadcast_message (ServerMessage.NewMessage "alice" "hi")
              exState.rooms "r" (some 1)).2) ∧
      (∃ room2,
        alGet (broadcast_message (ServerMessage.NewMessage "alice" "hi")
              exState.rooms "r" (some 1)).1 "r"
            = some room2 ∧
          room2.clients.map (fun p => (p.1, p.2.username, p.2.sendOk))
            = ({ clients := [(1, exAlice), (2, exBob)], history := [] } : Room).clients.map
                (fun p => (p.1, p.2.username, p.2.sendOk)) ∧
          (∀ S c2, (some 1 : Option Nat) = some S →
            alGet ({ clients := [(1, exAlice), (2, exBob)], history := [] } : Room).clients S
              = some c2 → alGet room2.clients S = some c2)) :=
  C5_broadcast_exclusion (ServerMessage.NewMessage "alice" "hi") exState.rooms
    "r" (some 1) { clients := [(1, exAlice), (2, exBob)], history := [] }
    (by decide)

/-- A delivery attempt is not a store write. -/
theorem isStoreWrite_eq_false_of_send (e : Effect) (h : e.isSendAttempt = true) :
    e.isStoreWrite = false := by
  cases e <;> simp_all [Effect.isSendAttempt, Effect.isStoreWrite]

/-- A list of delivery attempts contains no store write. -/
theorem filter_isStoreWrite_sends (l : List Effect)
    (h : ∀ e ∈ l, e.isSendAttempt = true) : l.filter Effect.isStoreWrite = [] := by
  induction l with
  | nil => rfl
  | cons e t ih =>
    rw [List.filter_cons, isStoreWrite_eq_false_of_send e (h e (by simp))]
    simp only [Bool.false_eq_true, if_false]
    exact ih (fun e2 he2 => h e2 (by simp [he2]))

/-- Every broadcast effect is a delivery attempt of the rendered message to a
non-excluded client (also covering the missing-room no-op). -/
theorem broadcast_mem (message : ServerMessage) (rooms : List (String × Room))
    (room_name : String) (ex : Option Nat) (e : Effect)
    (he : e ∈ (broadcast_message message rooms room_name ex).2) :
    ∃ id, e = Effect.sendAttempt id (parse_message_for_display message) ∧
      ex ≠ some id := by
  rcases hr : alGet rooms room_name with _ | room
  · rw [broadcast_message, hr] at he
    exact absurd he (List.not_mem_nil e)
  · rw [broadcast_some message rooms room_name ex room hr] at he
    obtain ⟨id, h1, h2, _⟩ := fanOut_mem _ _ _ _ he
    exact ⟨id, h1, h2⟩

/-- C6: a named session's disconnect persists exactly one `UserLeft` event,
every remaining occupant gets a delivery attempt of its rendering (no
exclusion), and every delivery attempt of the cleanup carries that rendering;
an anonymous session's disconnect broadcasts nothing and persists nothing. -/
theorem C6_departure_broadcast (s : ChatState) (cid : Nat) (room_name : String)
    (room : Room) (c : Client)
    (hroom : alGet s.rooms room_name = some room)
    (hc : alGet room.clients cid = some c) :
    (c.username ≠ "anonymous" →
      (cleanup_client s cid room_name).1.store
          = s.store ++ [(room_name, ServerMessage.UserLeft c.username)] ∧
        (cleanup_client s cid room_name).2.filter Effect.isStoreWrite
          = [Effect.storeWrite room_name (ServerMessage.UserLeft c.username)] ∧
        (∀ id c2, (id, c2) ∈ alRemove room.clients cid →
          Effect.sendAttempt id
              (parse_message_for_display (ServerMessage.UserLeft c.username))
            ∈ (cleanup_client s cid room_name).2) ∧
        (∀ id t, Effect.sendAttempt id t ∈ (cleanup_client s cid room_name).2 →
          t = parse_message_for_display (ServerMessage.UserLeft c.username))) ∧
    (c.username = "anonymous" →
      (cleanup_client s cid room_name).1.store = s.store ∧
        (cleanup_client s cid room_name).2
          = [Effect.lockAcquire, Effect.lockRelease]) := by
  constructor
  · intro hname
    rw [cleanup_client_named s cid room_name room c hroom hc hname]
    refine ⟨rfl, ?_, ?_, ?_⟩
    · simp only [List.filter_cons, List.filter_append]
      rw [filter_isStoreWrite_sends _
        (fun e he => broadcast_effects_sends _ _ _ _ e he)]
      simp [Effect.isStoreWrite]
    · intro id c2 hmem
      rcases hrem : alRemove room.clients cid with _ | ⟨p, rest⟩
      · rw [hrem] at hmem
        exact absurd hmem (List.not_mem_nil _)
      · rw [hrem] at hmem
        simp only [List.isEmpty_cons, Bool.false_eq_true, if_false]
        have hb : Effect.sendAttempt id
            (parse_message_for_display (ServerMessage.UserLeft c.username))
            ∈ (broadcast_message (ServerMessage.UserLeft c.username)
              (alSet s.rooms room_name { room with clients := p :: rest })
              room_name none).2 := by
          rw [broadcast_some _ _ _ _ { room with clients := p :: rest }
            (alGet_alSet_self _ _ _ (by simp [hroom]))]
          exact fanOut_attempt_mem _ none (p :: rest) id c2 hmem (by simp)
        exact List.mem_cons_of_mem _ (List.mem_cons_of_mem _
          (List.mem_cons_of_mem _ (List.mem_append_left _ hb)))
    · intro id t hmem
      rcases List.mem_cons.mp hmem with h | h1
      · exact absurd h (by simp)
      rcases List.mem_cons.mp h1 with h | h2
      · exact absurd h (by simp)
      rcases List.mem_cons.mp h2 with h | h3
      · exact absurd h (by simp)
      rcases List.mem_append.mp h3 with h | h4
      · obtain ⟨id2, hb1, _⟩ := broadcast_mem _ _ _ _ _ h
        exact (Effect.sendAttempt.injEq _ _ _ _ ▸ hb1).2
      · rcases List.mem_cons.mp h4 with h | h5
        · exact absurd h (by simp)
        · rw [List.mem_singleton] at h5
          exact absurd h5 (by simp)
  · intro hanon
    rw [cleanup_client_anon s cid room_name room c hroom hc hanon]
    exact ⟨rfl, rfl⟩

/-- Witness for C6_departure_broadcast at a concrete input. -/
theorem C6_departure_broadcast_witness :
    (exAlice.username ≠ "anonymous" →
      (cleanup_client exState 1 "r").1.store
          = exState.store ++ [("r", ServerMessage.UserLeft exAlice.username)] ∧
        (cleanup_client exState 1 "r").2.filter Effect.isStoreWrite
          = [Effect.storeWrite "r" (ServerMessage.UserLeft exAlice.username)] ∧
        (∀ id c2, (id, c2) ∈ alRemove
            ({ clients := [(1, exAlice), (2, exBob)], history := [] } : Room).clients 1 →
          Effect.sendAttempt id
              (parse_message_for_display (ServerMessage.UserLeft exAlice.username))
            ∈ (cleanup_client exState 1 "r").2) ∧
        (∀ id t, Effect.sendAttempt id t ∈ (cleanup_client exState 1 "r").2 →
          t = parse_message_for_display (ServerMessage.UserLeft exAlice.username))) ∧
    (exAlice.username = "anonymous" →
      (cleanup_client exState 1 "r").1.store = exState.store ∧
        (cleanup_client exState 1 "r").2
          = [Effect.lockAcquire, Effect.lockRelease]) :=
  C6_departure_broadcast exState 1 "r"
    { clients := [(1, exAlice), (2, exBob)], history := [] } exAlice
    (by decide) (by decide)

/-- C8: the claim that an empty-argument set-name intent is answered with an
inline notice and mutates nothing is false: after the outer trim, a frame such
as "/user   " becomes the text "/user", which is not recognised as a set-name
command at all — a named session gets it broadcast and persisted as an
ordinary chat message, and no notice is sent to the sender. -/
theorem C8_counterexample :
    parseFrame "/user   " = Intent.chat "/user" ∧
      (processFrame "/user   " 1 exState "r").1.store
        = [("r", ServerMessage.NewMessage "alice" "/user")] ∧
      (processFrame "/user   " 1 exState "r").2.filter (Effect.isSendAttemptTo 1)
        = [] ∧
      Effect.sendAttempt 2 "[alice] /user"
        ∈ (processFrame "/user   " 1 exState "r").2 := by
  refine ⟨rfl, rfl, rfl, by decide⟩

/-- C8 (amended): a set-name frame whose argument is empty or trims to empty
is never recognised as a set-name intent: after trimming it is the chat text
"/user", so the display name never changes, no `UserJoined` is ever persisted,
a named session gets it broadcast and persisted as a `NewMessage`, and an
anonymous session gets the chat gating notice. -/
theorem C8_empty_name_as_chat (text : String) (cid : Nat) (s : ChatState)
    (room_name : String) (room : Room) (c : Client)
    (htrim : trimStr text = "/user")
    (hroom : alGet s.rooms room_name = some room)
    (hc : alGet room.clients cid = some c) :
    parseFrame text = Intent.chat "/user" ∧
      processFrame text cid s room_name
        = handle_chat_message "/user" cid s room_name ∧
      (∀ u r2, Effect.storeWrite r2 (ServerMessage.UserJoined u)
        ∉ (processFrame text cid s room_name).2) ∧
      (∀ id, ((alGet (processFrame text cid s room_name).1.rooms room_name).bind
          (fun r2 => alGet r2.clients id)).map Client.username
        = (alGet room.clients id).map Client.username) ∧
      (c.username ≠ "anonymous" →
        (processFrame text cid s room_name).1.store
          = s.store ++ [(room_name, ServerMessage.NewMessage c.username "/user")]) ∧
      (c.username = "anonymous" →
        (processFrame text cid s room_name).2
          = [Effect.lockAcquire, Effect.sendAttempt cid chatGateNotice,
              Effect.lockRelease]) := by
  have hpf : parseFrame text = Intent.chat "/user" := by
    unfold parseFrame
    rw [htrim]
    rfl
  have hproc : processFrame text cid s room_name
      = handle_chat_message "/user" cid s room_name := by
    simp only [processFrame, hpf]
  have hne : (trimStr "/user").data.isEmpty = false := rfl
  refine ⟨hpf, hproc, ?_, ?_, ?_, ?_⟩
  · intro u r2 hmem
    rw [hproc] at hmem
    by_cases hname : c.username = "anonymous"
    · rw [handle_chat_message_anon "/user" cid s room_name room c hroom hc
        hname hne] at hmem
      rcases List.mem_cons.mp hmem with h | h1
      · simp at h
      rcases List.mem_cons.mp h1 with h | h2
      · simp at h
      · rw [List.mem_singleton] at h2
        simp at h2
    · rw [handle_chat_message_named "/user" cid s room_name room c hroom hc
        hname hne] at hmem
      rcases List.mem_cons.mp hmem with h | h1
      · simp at h
      rcases List.mem_append.mp h1 with h | h2
      · have := broadcast_effects_sends _ _ _ _ _ h
        simp [Effect.isSendAttempt] at this
      rcases List.mem_cons.mp h2 with h | h3
      · simp at h
      · rw [List.mem_singleton] at h3
        simp at h3
  · intro id
    rw [hproc]
    by_cases hname : c.username = "anonymous"
    · rw [handle_chat_message_anon "/user" cid s room_name room c hroom hc
        hname hne]
      rw [alGet_alSet_self _ _ _ (by simp [hroom]), Option.some_bind]
      refine alGet_alSet_username room.clients cid id _ (fun c2 hc2 => ?_)
      rw [hc] at hc2
      injection hc2 with h
      rw [← h]
      exact (sendTo_meta c chatGateNotice).1
    · rw [handle_chat_message_named "/user" cid s room_name room c hroom hc
        hname hne]
      show ((alGet (broadcast_message (ServerMessage.NewMessage c.username "/user")
          s.rooms room_name (some cid)).1 room_name).bind _).map _ = _
      rw [broadcast_some _ _ _ _ room hroom,
        alGet_alSet_self _ _ _ (by simp [hroom]), Option.some_bind]
      exact fanOut_usernames _ _ _ _
  · intro hname
    rw [hproc, handle_chat_message_named "/user" cid s room_name room c hroom
      hc hname hne]
  · intro hanon
    rw [hproc, handle_chat_message_anon "/user" cid s room_name room c hroom
      hc hanon hne]

/-- Witness for C8_empty_name_as_chat at a concrete input. -/
theorem C8_empty_name_as_chat_witness :
    parseFrame "/user   " = Intent.chat "/user" ∧
      processFrame "/user   " 1 exState "r"
        = handle_chat_message "/user" 1 exState "r" ∧
      (∀ u r2, Effect.storeWrite r2 (ServerMessage.UserJoined u)
        ∉ (processFrame "/user   " 1 exState "r").2) ∧
      (∀ id, ((alGet (processFrame "/user   " 1 exState "r").1.rooms "r").bind
          (fun r2 => alGet r2.clients id)).map Client.username
        = (alGet ({ clients := [(1, exAlice), (2, exBob)], history := [] } : Room).clients
            id).map Client.username) ∧
      (exAlice.username ≠ "anonymous" →
        (processFrame "/user   " 1 exState "r").1.store
          = exState.store ++ [("r", ServerMessage.NewMessage exAlice.username "/user")]) ∧
      (exAlice.username = "anonymous" →
        (processFrame "/user   " 1 exState "r").2
          = [Effect.lockAcquire, Effect.sendAttempt 1 chatGateNotice,
              Effect.lockRelease]) :=
  C8_empty_name_as_chat "/user   " 1 exState "r"
    { clients := [(1, exAlice), (2, exBob)], history := [] } exAlice
    (by decide) (by decide) (by decide)

/-- C9: the claim that broadcast-triggered store writes are decoupled from the
exclusive room-access window is false: in all three broadcasting handlers the
`save_message` call is awaited while the rooms `MutexGuard` is still alive, so
the write lands strictly inside the lock window. -/
theorem C9_counterexample :
    writesInsideLock 0 (handle_chat_message "hi" 1 exState "r").2 = true ∧
      writesInsideLock 0 (handle_set_username "carol" 1 exState "r").2 = true ∧
      writesInsideLock 0 (cleanup_client exState 1 "r").2 = true := by
  refine ⟨rfl, rfl, rfl⟩

/-- C9 (amended): in each broadcasting handler the store write is issued after
every delivery attempt of the broadcast but before the guard's release — the
exclusive access is held across the write, so store latency delays the lock
release (and hence subsequent room operations), never the current broadcast's
deliveries. -/
theorem C9_persistence_inside_window (content username : String) (cid : Nat)
    (s : ChatState) (room_name : String) (room : Room) (c : Client)
    (hroom : alGet s.rooms room_name = some room)
    (hc : alGet room.clients cid = some c)
    (hname : c.username ≠ "anonymous")
    (hne : (trimStr content).data.isEmpty = false)
    (hok : c.sendOk = true) :
    (∃ mid, (handle_chat_message content cid s room_name).2
        = Effect.lockAcquire :: mid
            ++ [Effect.storeWrite room_name
                  (ServerMessage.NewMessage c.username content),
                Effect.lockRelease] ∧
        ∀ e ∈ mid, e.isSendAttempt = true) ∧
    (∃ mid, (handle_set_username username cid s room_name).2
        = Effect.lockAcquire :: mid
            ++ [Effect.storeWrite room_name (ServerMessage.UserJoined username),
                Effect.lockRelease] ∧
        ∀ e ∈ mid, e.isSendAttempt = true ∨ e.isStoreRead = true) ∧
    (∃ mid, (cleanup_client s cid room_name).2
        = Effect.lockAcquire :: Effect.lockRelease :: Effect.lockAcquire :: mid
            ++ [Effect.storeWrite room_name (ServerMessage.UserLeft c.username),
                Effect.lockRelease] ∧
        ∀ e ∈ mid, e.isSendAttempt = true) := by
  refine ⟨?_, ?_, ?_⟩
  · rw [handle_chat_message_named content cid s room_name room c hroom hc
      hname hne]
    exact ⟨_, rfl, fun e he => broadcast_effects_sends _ _ _ _ e he⟩
  · rw [handle_set_username_ok username cid s room_name room c hroom hc hok]
    simp only [← List.append_assoc]
    refine ⟨_, rfl, ?_⟩
    intro e he
    rcases List.mem_append.mp he with h | h
    · rcases List.mem_append.mp h with h2 | h2
      · by_cases hyd : room.history.isEmpty
        · rw [if_pos hyd] at h2
          rw [List.mem_singleton] at h2
          rw [h2]
          right
          rfl
        · rw [if_neg hyd] at h2
          exact absurd h2 (List.not_mem_nil e)
      · obtain ⟨t, _, ht⟩ := List.mem_map.mp h2
        left
        rw [← ht]
        rfl
    · exact Or.inl (broadcast_effects_sends _ _ _ _ e h)
  · rw [cleanup_client_named s cid room_name room c hroom hc hname]
    exact ⟨_, rfl, fun e he => broadcast_effects_sends _ _ _ _ e he⟩

/-- Witness for C9_persistence_inside_window at a concrete input. -/
theorem C9_persistence_inside_window_witness :
    (∃ mid, (handle_chat_message "hi" 1 exState "r").2
        = Effect.lockAcquire :: mid
            ++ [Effect.storeWrite "r"
                  (ServerMessage.NewMessage exAlice.username "hi"),
                Effect.lockRelease] ∧
        ∀ e ∈ mid, e.isSendAttempt = true) ∧
    (∃ mid, (handle_set_username "carol" 1 exState "r").2
        = Effect.lockAcquire :: mid
            ++ [Effect.storeWrite "r" (ServerMessage.UserJoined "carol"),
                Effect.lockRelease] ∧
        ∀ e ∈ mid, e.isSendAttempt = true ∨ e.isStoreRead = true) ∧
    (∃ mid, (cleanup_client exState 1 "r").2
        = Effect.lockAcquire :: Effect.lockRelease :: Effect.lockAcquire :: mid
            ++ [Effect.storeWrite "r" (ServerMessage.UserLeft exAlice.username),
                Effect.lockRelease] ∧
        ∀ e ∈ mid, e.isSendAttempt = true) :=
  C9_persistence_inside_window "hi" "carol" 1 exState "r"
    { clients := [(1, exAlice), (2, exBob)], history := [] } exAlice
    (by decide) (by decide) (by decide) (by decide) (by decide)

/-- C10: setting the literal name "anonymous" succeeds — the `UserJoined
"anonymous"` event is persisted and every other occupant gets its delivery
attempt — yet the session is thereafter treated as unnamed: its chat attempts
and history requests are answered with the gating notices only, and its
disconnect broadcasts nothing and persists nothing. -/
theorem C10_anonymous_literal_name (cid : Nat) (s : ChatState)
    (room_name : String) (room : Room) (c : Client)
    (hroom : alGet s.rooms room_name = some room)
    (hc : alGet room.clients cid = some c)
    (hok : c.sendOk = true) :
    (handle_set_username "anonymous" cid s room_name).1.store
        = s.store ++ [(room_name, ServerMessage.UserJoined "anonymous")] ∧
      (∀ id c2, (id, c2) ∈ room.clients → id ≠ cid →
        Effect.sendAttempt id
            (parse_message_for_display (ServerMessage.UserJoined "anonymous"))
          ∈ (handle_set_username "anonymous" cid s room_name).2) ∧
      (∃ room1 c1,
        alGet (handle_set_username "anonymous" cid s room_name).1.rooms room_name
            = some room1 ∧
          alGet room1.clients cid = some c1 ∧ c1.username = "anonymous") ∧
      (∀ content, (trimStr content).data.isEmpty = false →
        (handle_chat_message content cid
              (handle_set_username "anonymous" cid s room_name).1 room_name).2
            = [Effect.lockAcquire, Effect.sendAttempt cid chatGateNotice,
                Effect.lockRelease] ∧
          (handle_chat_message content cid
              (handle_set_username "anonymous" cid s room_name).1 room_name).1.store
            = (handle_set_username "anonymous" cid s room_name).1.store) ∧
      ((handle_load_full_history cid
          (handle_set_username "anonymous" cid s room_name).1 room_name).2
        = [Effect.lockAcquire, Effect.sendAttempt cid historyGateNotice,
            Effect.lockRelease]) ∧
      ((cleanup_client (handle_set_username "anonymous" cid s room_name).1
            cid room_name).2
          = [Effect.lockAcquire, Effect.lockRelease] ∧
        (cleanup_client (handle_set_username "anonymous" cid s room_name).1
            cid room_name).1.store
          = (handle_set_username "anonymous" cid s room_name).1.store) := by
  have heq := handle_set_username_ok "anonymous" cid s room_name room c hroom hc hok
  obtain ⟨room1, hroom1, hc1⟩ :
      ∃ room1,
        alGet (handle_set_username "anonymous" cid s room_name).1.rooms room_name
            = some room1 ∧
          alGet room1.clients cid
            = some (Client.mk "anonymous" c.sendOk (c.inbox
                ++ ((if room.history.isEmpty
                      then load_history s.store room_name MAX_HISTORY_SIZE
                      else room.history).map parse_message_for_display))) := by
    simp only [heq]
    rw [broadcast_some _ _ _ _ _ (alGet_alSet_self _ _ _ (by simp [hroom]))]
    refine ⟨_, alGet_alSet_self _ _ _ ?_, ?_⟩
    · rw [alGet_alSet_isSome]
      simp [hroom]
    · exact fanOut_excluded_untouched _ cid _ _
        (alGet_alSet_self _ _ _ (by simp [hc]))
  refine ⟨?_, ?_, ⟨room1, _, hroom1, hc1, rfl⟩, ?_, ?_, ?_⟩
  · simp only [heq]
  · intro id c2 hm hid
    simp only [heq]
    refine List.mem_cons_of_mem _ (List.mem_append_right _
      (List.mem_append_right _ (List.mem_append_left _ ?_)))
    rw [broadcast_some _ _ _ _ _ (alGet_alSet_self _ _ _ (by simp [hroom]))]
    refine fanOut_attempt_mem _ _ _ id c2 ?_ ?_
    · exact mem_alSet_of_ne _ _ _ _ _ hm hid
    · intro hcc
      exact hid (Option.some.inj hcc).symm
  · intro content hnec
    rw [handle_chat_message_anon content cid _ room_name room1 _ hroom1 hc1
      rfl hnec]
    exact ⟨rfl, rfl⟩
  · rw [handle_load_full_history_anon cid _ room_name room1 _ hroom1 hc1 rfl]
  · rw [cleanup_client_anon _ cid room_name room1 _ hroom1 hc1 rfl]
    exact ⟨rfl, rfl⟩

/-- Witness for C10_anonymous_literal_name at a concrete input. -/
theorem C10_anonymous_literal_name_witness :
    (handle_set_username "anonymous" 1 exState "r").1.store
        = exState.store ++ [("r", ServerMessage.UserJoined "anonymous")] ∧
      (∀ id c2, (id, c2) ∈ ({ clients := [(1, exAlice), (2, exBob)], history := [] } : Room).clients → id ≠ 1 →
        Effect.sendAttempt id
            (parse_message_for_display (ServerMessage.UserJoined "anonymous"))
          ∈ (handle_set_username "anonymous" 1 exState "r").2) ∧
      (∃ room1 c1,
        alGet (handle_set_username "anonymous" 1 exState "r").1.rooms "r"
            = some room1 ∧
          alGet room1.clients 1 = some c1 ∧ c1.username = "anonymous") ∧
      (∀ content, (trimStr content).data.isEmpty = false →
        (handle_chat_message content 1
              (handle_set_username "anonymous" 1 exState "r").1 "r").2
            = [Effect.lockAcquire, Effect.sendAttempt 1 chatGateNotice,
                Effect.lockRelease] ∧
          (handle_chat_message content 1
              (handle_set_username "anonymous" 1 exState "r").1 "r").1.store
            = (handle_set_username "anonymous" 1 exState "r").1.store) ∧
      ((handle_load_full_history 1
          (handle_set_username "anonymous" 1 exState "r").1 "r").2
        = [Effect.lockAcquire, Effect.sendAttempt 1 historyGateNotice,
            Effect.lockRelease]) ∧
      ((cleanup_client (handle_set_username "anonymous" 1 exState "r").1
            1 "r").2
          = [Effect.lockAcquire, Effect.lockRelease] ∧
        (cleanup_client (handle_set_username "anonymous" 1 exState "r").1
            1 "r").1.store
          = (handle_set_username "anonymous" 1 exState "r").1.store) :=
  C10_anonymous_literal_name 1 exState "r"
    { clients := [(1, exAlice), (2, exBob)], history := [] } exAlice
    (by decide) (by decide) (by decide)
